import Mathlib

/-!
Verification of `src/framework/graphics/framebuffer.cpp` (FrameBuffer) from
the otclient-web rendering framework.

The C++ class is embedded shallowly: the instance fields become a Lean
structure `FrameBuffer`, process-global state (the bound-framebuffer id, the
periodic-event dispatcher, the texture allocator, the clock, the window) becomes
a structure `World`, and each member function becomes a Lean function on these
structures.  Fallible operations (debug assertions, null-pointer dereferences)
return `Option`.

Compile-time configuration (`SCHEDULE_PAINTING`, `FLUSH_CONTROL_FOR_RENDERING`,
`FORCE_ANIMATED_RENDERING`, `MIN_TIME_UPDATE`, `MAX_TIME_UPDATE`,
`FLUSH_AMOUNT`, `FORCE_UPDATE`) comes from `client/features.h`, which is not
part of the excerpt; it is kept abstract as a `Config` parameter.
-/

namespace FB

/-- Modelled from the spec: a 2-D size (the `Size` utility class, not in the
excerpt).  Sizes are compared structurally; `isValid` captures the spec's
"valid (non-degenerate) size" precondition of `resize`. -/
structure Size where
  width : Int
  height : Int
deriving DecidableEq, Repr

/-- Modelled from the spec: validity of a size (positive dimensions). -/
def Size.isValid (s : Size) : Bool :=
  0 < s.width && 0 < s.height

/-- Modelled from the spec: a texture surface (external collaborator).  Only
the attributes the FrameBuffer code reads or writes are kept.  `id` is a
fresh allocation identity so that "the texture object is unchanged" is
expressible; pixel contents are not modelled (no claim mentions them beyond
object identity). -/
structure Texture where
  id : Nat
  size : Size
  smooth : Bool
  upsideDown : Bool
deriving DecidableEq, Repr

/-- Compile-time configuration from `client/features.h` (not in the excerpt),
kept abstract.  Booleans stand for the 0/1 macros. -/
structure Config where
  SCHEDULE_PAINTING : Bool
  FLUSH_CONTROL_FOR_RENDERING : Bool
  FORCE_ANIMATED_RENDERING : Bool
  MIN_TIME_UPDATE : Nat
  MAX_TIME_UPDATE : Nat
  FLUSH_AMOUNT : Nat
  FORCE_UPDATE : Nat
deriving DecidableEq, Repr

/-- One entry of the update-scheduling table `m_schedules`: the reference
count (`first`) and the owned periodic-task handle (`second`, null when no
task is alive).  Task handles are dispatcher-issued numeric ids. -/
structure ScheduleEntry where
  count : Nat
  task : Option Nat
deriving DecidableEq, Repr

/-- C++ value-initialisation of a schedule entry, as performed by
`std::map::operator[]` on first access: `{0, nullptr}`. -/
def ScheduleEntry.default : ScheduleEntry := ⟨0, none⟩

/-- The schedule table `m_schedules`, a finite map from millisecond duration
to entry, embedded as an association list (first occurrence wins). -/
abbrev Schedules := List (Nat × ScheduleEntry)

/-- Lookup mirroring `std::map::operator[]` reads: the entry for the key, or
a value-initialised entry when absent. -/
def Schedules.getD (tb : Schedules) (time : Nat) : ScheduleEntry :=
  match tb with
  | [] => ScheduleEntry.default
  | (k, e) :: rest => if k = time then e else Schedules.getD rest time

/-- Store mirroring a write through the reference obtained from
`std::map::operator[]`: overwrite the entry if the key is present, insert it
otherwise (operator[] default-inserts on first access). -/
def Schedules.set (tb : Schedules) (time : Nat) (e : ScheduleEntry) : Schedules :=
  match tb with
  | [] => [(time, e)]
  | (k, e0) :: rest =>
      if k = time then (k, e) :: rest else (k, e0) :: Schedules.set rest time e

/-- Key membership of the schedule table ("an entry exists"). -/
def Schedules.hasKey (tb : Schedules) (time : Nat) : Bool :=
  match tb with
  | [] => false
  | (k, _) :: rest => k = time || Schedules.hasKey rest time

/-- Instance state of a `FrameBuffer`.  Fields correspond one-to-one to the
data members used by `framebuffer.cpp`; the members' declarations and initialisers
live in `framebuffer.h`, which is outside the excerpt, so their initial
values are modelled from the spec in `FrameBuffer.init` below.  `texture` and
`screenBackup` are the two `TexturePtr` smart pointers (null = `none`). -/
structure FrameBuffer where
  fbo : Nat
  prevBoundFbo : Nat
  requestAmount : Nat
  texture : Option Texture
  screenBackup : Option Texture
  smooth : Bool
  backuping : Bool
  drawable : Bool
  forceUpdate : Bool
  lastRenderedTime : Nat
  schedulePaintingEnabled : Bool
  schedules : Schedules
deriving DecidableEq

/-- Process-global state shared by all instances: the global
`FrameBuffer::boundFbo`, the periodic dispatcher (fresh-handle counter and
the set of not-yet-cancelled tasks), the texture allocator's fresh-id
counter, the clock (`g_clock` milliseconds) and the window dimensions. -/
structure World where
  boundFbo : Nat
  nextTaskId : Nat
  activeTasks : List Nat
  nextTexId : Nat
  now : Nat
  windowWidth : Int
  windowHeight : Int
deriving DecidableEq

/-- Construction (`FrameBuffer::FrameBuffer` / `internalCreate` plus the
in-class initialisers of `framebuffer.h`, the latter modelled from the spec:
null texture pointers, force flag clear, empty schedule table).  `fbo` is the
handle returned by `glGenFramebuffers` when `g_graphics.canUseFBO()` holds
(non-zero, or the constructor aborts fatally), and `0` otherwise.  The
settable flags (`smooth`, `drawable`, backup-enabled, scheduling-enabled) are
taken as parameters. -/
def FrameBuffer.init (fbo : Nat) (smooth backuping drawable schedEnabled : Bool) :
    FrameBuffer :=
  { fbo := fbo
    prevBoundFbo := 0
    requestAmount := 0
    texture := none
    screenBackup := none
    smooth := smooth
    backuping := backuping
    drawable := drawable
    forceUpdate := false
    lastRenderedTime := 0
    schedulePaintingEnabled := schedEnabled
    schedules := [] }

/-- The guard `SCHEDULE_PAINTING && m_schedulePaintingEnabled` used by
`canUpdate`, `update` and `schedulePainting`. -/
def schedulingOn (cfg : Config) (fb : FrameBuffer) : Bool :=
  cfg.SCHEDULE_PAINTING && fb.schedulePaintingEnabled

/-- `m_lastRenderedTime.ticksElapsed()`: milliseconds since the timer was
last restarted (the clock never runs backwards, so truncated subtraction is
exact whenever `now ≥ lastRenderedTime`). -/
def elapsed (w : World) (fb : FrameBuffer) : Nat :=
  w.now - fb.lastRenderedTime

/-- `FrameBuffer::flushTime` (framebuffer.cpp lines 188-195).  With adaptive
flush control the source computes
`std::min<uint8_t>(MIN_TIME_UPDATE + std::floor<uint8_t>(m_requestAmount /
FLUSH_AMOUNT), MAX_TIME_UPDATE)`: the explicit `uint8_t` template arguments
narrow the divided counter (in `std::floor<uint8_t>`) and both `std::min`
arguments to eight bits, and the function returns `uint8_t` in either branch.
Each narrowing conversion is modelled as reduction mod 256 (the customary
wrap behaviour of the out-of-range conversions).  The integer division is
exact (`std::floor` of an already-integral quotient). -/
def flushTime (cfg : Config) (fb : FrameBuffer) : Nat :=
  if cfg.FLUSH_CONTROL_FOR_RENDERING then
    min ((cfg.MIN_TIME_UPDATE + (fb.requestAmount / cfg.FLUSH_AMOUNT) % 256) % 256)
      (cfg.MAX_TIME_UPDATE % 256)
  else
    cfg.MIN_TIME_UPDATE % 256

/-- `FrameBuffer::canUpdate` (framebuffer.cpp lines 174-180). -/
def canUpdate (cfg : Config) (w : World) (fb : FrameBuffer) : Bool :=
  if schedulingOn cfg fb then
    fb.forceUpdate || (decide (0 < fb.requestAmount) && decide (flushTime cfg fb ≤ elapsed w fb))
  else
    fb.forceUpdate || decide (flushTime cfg fb ≤ elapsed w fb)

/-- `FrameBuffer::update` (framebuffer.cpp lines 182-186). -/
def update (cfg : Config) (fb : FrameBuffer) : FrameBuffer :=
  if schedulingOn cfg fb then { fb with requestAmount := fb.requestAmount + 1 } else fb

/-- `FrameBuffer::schedulePainting` (framebuffer.cpp lines 197-225).  The
periodic task registered with `g_dispatcher.cycleEvent` is modelled by a
fresh dispatcher handle pushed onto the active-task list; its callback body
(set the force flag, or call `update`, depending on
`FORCE_ANIMATED_RENDERING`) fires later from the dispatcher and is not part
of this call's effect. -/
def schedulePainting (cfg : Config) (time : Nat) (w : World) (fb : FrameBuffer) :
    World × FrameBuffer :=
  if !cfg.SCHEDULE_PAINTING || !fb.schedulePaintingEnabled then (w, fb)
  else if time = 0 then (w, fb)
  else if time = cfg.FORCE_UPDATE then (w, { fb with forceUpdate := true })
  else if time ≤ cfg.MIN_TIME_UPDATE then (w, update cfg fb)
  else
    let e := fb.schedules.getD time
    if e.count = 0 then
      let h := w.nextTaskId
      let w1 := { w with nextTaskId := w.nextTaskId + 1, activeTasks := h :: w.activeTasks }
      (w1, { fb with schedules := fb.schedules.set time ⟨e.count + 1, some h⟩ })
    else
      (w, { fb with schedules := fb.schedules.set time ⟨e.count + 1, e.task⟩ })

/-- `FrameBuffer::removeRenderingTime` (framebuffer.cpp lines 227-241).
Compiled only under `SCHEDULE_PAINTING`; note it does not consult the
per-instance `m_schedulePaintingEnabled` flag.  `m_schedules[time]`
default-inserts a `{0, nullptr}` entry when the key is absent, which the
`Schedules.set` in every branch reproduces. -/
def removeRenderingTime (cfg : Config) (time : Nat) (w : World) (fb : FrameBuffer) :
    World × FrameBuffer :=
  if !cfg.SCHEDULE_PAINTING then (w, fb)
  else
    let e := fb.schedules.getD time
    if e.count = 0 then (w, { fb with schedules := fb.schedules.set time e })
    else
      let c := e.count - 1
      if c = 0 && e.task.isSome then
        let w1 := { w with activeTasks :=
          match e.task with
          | some h => w.activeTasks.erase h
          | none => w.activeTasks }
        (w1, { fb with schedules := fb.schedules.set time ⟨0, none⟩ })
      else
        (w, { fb with schedules := fb.schedules.set time ⟨c, e.task⟩ })

/-- `FrameBuffer::internalBind` (framebuffer.cpp lines 128-139).  With a real
target: `assert(boundFbo != m_fbo)` (assertion failure = `none`), bind at the
API level, remember the previously bound handle, update the global.  In
backup mode: capture the screen into `m_screenBackup` — which dereferences
`m_screenBackup` and (through `getSize`) `m_texture`, so both must be
non-null. -/
def internalBind (w : World) (fb : FrameBuffer) : Option (World × FrameBuffer) :=
  if fb.fbo ≠ 0 then
    if w.boundFbo = fb.fbo then none
    else some ({ w with boundFbo := fb.fbo }, { fb with prevBoundFbo := w.boundFbo })
  else if fb.backuping then
    match fb.texture, fb.screenBackup with
    | some _, some _ => some (w, fb)
    | _, _ => none
  else
    some (w, fb)

/-- `FrameBuffer::internalRelease` (framebuffer.cpp lines 141-161).  With a
real target: `assert(boundFbo == m_fbo)`, rebind the saved previous handle.
Without one: `getSize` and `m_texture->copyFromScreen` dereference
`m_texture`, and restoring the screen dereferences `m_screenBackup` when
backuping.  Pixel copies do not change any modelled field. -/
def internalRelease (w : World) (fb : FrameBuffer) : Option (World × FrameBuffer) :=
  if fb.fbo ≠ 0 then
    if w.boundFbo ≠ fb.fbo then none
    else some ({ w with boundFbo := fb.prevBoundFbo }, fb)
  else
    match fb.texture with
    | none => none
    | some _ =>
        if fb.backuping then
          match fb.screenBackup with
          | none => none
          | some _ => some (w, fb)
        else some (w, fb)

/-- `FrameBuffer::getSize` (framebuffer.cpp lines 163-172): without a real
target the size is clamped by the window dimensions; both branches
dereference `m_texture`. -/
def getSize (w : World) (fb : FrameBuffer) : Option Size :=
  match fb.texture with
  | none => none
  | some t =>
      if fb.fbo = 0 then
        some ⟨min t.size.width w.windowWidth, min t.size.height w.windowHeight⟩
      else
        some t.size

/-- `FrameBuffer::resize` (framebuffer.cpp lines 61-86): assert validity,
no-op when the texture already has the requested size, otherwise allocate a
fresh texture (smooth per `m_smooth`, upside-down), and either attach it to
the real target inside an `internalBind`/`internalRelease` pair (completeness
verified by the GPU, fatal on failure — the attachment itself touches no
modelled field) or, in backup mode with backuping enabled, allocate the
screen-backup texture. -/
def resize (size : Size) (w : World) (fb : FrameBuffer) : Option (World × FrameBuffer) :=
  if !size.isValid then none
  else if (fb.texture.map Texture.size) = some size then some (w, fb)
  else
    let tex : Texture := ⟨w.nextTexId, size, fb.smooth, true⟩
    let w1 := { w with nextTexId := w.nextTexId + 1 }
    let fb1 := { fb with texture := some tex }
    if fb.fbo ≠ 0 then
      match internalBind w1 fb1 with
      | none => none
      | some (w2, fb2) => internalRelease w2 fb2
    else
      if fb.backuping then
        let bk : Texture := ⟨w1.nextTexId, size, false, true⟩
        some ({ w1 with nextTexId := w1.nextTexId + 1 }, { fb1 with screenBackup := some bk })
      else
        some (w1, fb1)

/-- `FrameBuffer::bind` (framebuffer.cpp lines 88-93): save painter state
(external, not modelled), `internalBind`, then
`g_painter->setResolution(m_texture->getSize())` — an unguarded dereference
of `m_texture`. -/
def bind (w : World) (fb : FrameBuffer) : Option (World × FrameBuffer) :=
  match internalBind w fb with
  | none => none
  | some (w1, fb1) =>
      match fb1.texture with
      | none => none
      | some _ => some (w1, fb1)

/-- `FrameBuffer::release` (framebuffer.cpp lines 95-107): `internalRelease`,
restore painter state, clear the force flag, restart the last-rendered timer
and, when `SCHEDULE_PAINTING` is compiled in, zero the request counter. -/
def release (cfg : Config) (w : World) (fb : FrameBuffer) : Option (World × FrameBuffer) :=
  match internalRelease w fb with
  | none => none
  | some (w1, fb1) =>
      some (w1,
        { fb1 with
            forceUpdate := false
            lastRenderedTime := w1.now
            requestAmount := if cfg.SCHEDULE_PAINTING then 0 else fb1.requestAmount })

/-- Modelled from the spec: `Painter::drawTexturedRect` consumes a texture
surface, so drawing with a null `TexturePtr` dereferences it.  The draw
itself changes no modelled state; `some ()` means the call completes. -/
def drawTexturedRect (tex : Option Texture) : Option Unit :=
  match tex with
  | none => none
  | some _ => some ()

/-- `FrameBuffer::draw()` (framebuffer.cpp lines 109-114): no-op when not
drawable; otherwise builds `Rect(0, 0, getSize())` (dereferencing
`m_texture`) and draws the backing texture. -/
def draw (w : World) (fb : FrameBuffer) : Option Unit :=
  if !fb.drawable then some ()
  else
    match getSize w fb with
    | none => none
    | some _ => drawTexturedRect fb.texture

/-- `FrameBuffer::draw(dest)` (framebuffer.cpp lines 122-126): no-op when not
drawable; otherwise draws with source `Rect(0, 0, getSize())`. -/
def drawDest (w : World) (fb : FrameBuffer) : Option Unit :=
  if !fb.drawable then some ()
  else
    match getSize w fb with
    | none => none
    | some _ => drawTexturedRect fb.texture

/-- `FrameBuffer::draw(dest, src)` (framebuffer.cpp lines 116-120): no-op
when not drawable; otherwise hands `m_texture` to the painter. -/
def drawDestSrc (fb : FrameBuffer) : Option Unit :=
  if !fb.drawable then some ()
  else drawTexturedRect fb.texture

/-- Modelled from the spec: the scheduling-enabled flag is one of the
settable flags of the public interface (its setter lives in the header,
outside the excerpt). -/
def setSchedulePaintingEnabled (b : Bool) (fb : FrameBuffer) : FrameBuffer :=
  { fb with schedulePaintingEnabled := b }

/-! ### Sample concrete values, used by witnesses and counterexamples -/

/-- A sample configuration: scheduling compiled in, adaptive flush control
on, plausible constants (the real ones live in `client/features.h`). -/
def cfgA : Config := ⟨true, true, false, 16, 100, 10, 65535⟩

/-- A sample world: nothing bound, dispatcher and texture allocator fresh,
clock at 1000 ms, an 800×600 window. -/
def wA : World := ⟨0, 1, [], 0, 1000, 800, 600⟩

/-- A freshly constructed instance owning handle 1, with scheduling
enabled. -/
def fbA : FrameBuffer := FrameBuffer.init 1 false false true true

/-! ### Basic lemmas about the schedule table -/

theorem Schedules.getD_set_self (tb : Schedules) (t : Nat) (e : ScheduleEntry) :
    (tb.set t e).getD t = e := by
  induction tb with
  | nil => simp [Schedules.set, Schedules.getD]
  | cons p rest ih =>
      obtain ⟨k, e0⟩ := p
      by_cases hk : k = t
      · simp [Schedules.set, Schedules.getD, hk]
      · simp [Schedules.set, Schedules.getD, hk, ih]

theorem Schedules.getD_set_ne (tb : Schedules) (t t' : Nat) (e : ScheduleEntry)
    (h : t ≠ t') : (tb.set t e).getD t' = tb.getD t' := by
  induction tb with
  | nil => simp [Schedules.set, Schedules.getD, h]
  | cons p rest ih =>
      obtain ⟨k, e0⟩ := p
      by_cases hk : k = t
      · subst hk
        simp [Schedules.set, Schedules.getD, h]
      · by_cases hk' : k = t'
        · simp [Schedules.set, Schedules.getD, hk, hk', Ne.symm h]
        · simp [Schedules.set, Schedules.getD, hk, hk', ih]

/-- The schedule-table invariant of the spec: an entry's task handle is
non-null iff its reference count is positive. -/
def tableWF (tb : Schedules) : Prop :=
  ∀ p ∈ tb, (p.2.task.isSome = true ↔ 0 < p.2.count)

instance (tb : Schedules) : Decidable (tableWF tb) :=
  inferInstanceAs (Decidable (∀ p ∈ tb, _))

theorem tableWF_getD (tb : Schedules) (t : Nat) (h : tableWF tb) :
    ((tb.getD t).task.isSome = true ↔ 0 < (tb.getD t).count) := by
  induction tb with
  | nil => simp [Schedules.getD, ScheduleEntry.default]
  | cons p rest ih =>
      obtain ⟨k, e0⟩ := p
      have hhead := h (k, e0) (List.mem_cons_self _ _)
      have hrest : tableWF rest := fun q hq => h q (List.mem_cons_of_mem _ hq)
      by_cases hk : k = t
      · simpa [Schedules.getD, hk] using hhead
      · simpa [Schedules.getD, hk] using ih hrest

theorem tableWF_set (tb : Schedules) (t : Nat) (e : ScheduleEntry)
    (h : tableWF tb) (he : e.task.isSome = true ↔ 0 < e.count) :
    tableWF (tb.set t e) := by
  induction tb with
  | nil =>
      intro p hp
      simp only [Schedules.set, List.mem_singleton] at hp
      subst hp; exact he
  | cons q rest ih =>
      obtain ⟨k, e0⟩ := q
      have hhead := h (k, e0) (List.mem_cons_self _ _)
      have hrest : tableWF rest := fun q hq => h q (List.mem_cons_of_mem _ hq)
      by_cases hk : k = t
      · intro p hp
        rw [Schedules.set, if_pos hk] at hp
        rcases List.mem_cons.mp hp with hp1 | hp1
        · subst hp1; exact he
        · exact h p (List.mem_cons_of_mem _ hp1)
      · intro p hp
        rw [Schedules.set, if_neg hk] at hp
        rcases List.mem_cons.mp hp with hp1 | hp1
        · subst hp1; exact hhead
        · exact ih hrest p hp1

/-! ### Claims about `canUpdate` and `flushTime` -/

/-- C1: with update scheduling enabled (compile-time flag on and the
instance's flag set), `canUpdate()` is false whenever the pending-request
counter is zero and the force flag is clear, regardless of elapsed time; and
it is true exactly when the force flag is set, or the counter is positive
and the elapsed time since the last render is at least `flushTime()`. -/
theorem canUpdate_enabled_spec (cfg : Config) (w : World) (fb : FrameBuffer)
    (h1 : cfg.SCHEDULE_PAINTING = true) (h2 : fb.schedulePaintingEnabled = true) :
    (fb.requestAmount = 0 → fb.forceUpdate = false → canUpdate cfg w fb = false) ∧
    (canUpdate cfg w fb = true ↔
      fb.forceUpdate = true ∨ (0 < fb.requestAmount ∧ flushTime cfg fb ≤ elapsed w fb)) := by
  constructor
  · intro hr hf
    simp [canUpdate, schedulingOn, h1, h2, hr, hf]
  · simp [canUpdate, schedulingOn, h1, h2]

/-- Witness for C1 at a concrete configuration and freshly built state. -/
theorem canUpdate_enabled_spec_witness :
    cfgA.SCHEDULE_PAINTING = true ∧ fbA.schedulePaintingEnabled = true ∧
    ((fbA.requestAmount = 0 → fbA.forceUpdate = false → canUpdate cfgA wA fbA = false) ∧
     (canUpdate cfgA wA fbA = true ↔
       fbA.forceUpdate = true ∨ (0 < fbA.requestAmount ∧ flushTime cfgA fbA ≤ elapsed wA fbA))) :=
  ⟨rfl, rfl, canUpdate_enabled_spec cfgA wA fbA rfl rfl⟩

/-- Counterexample to C2 as stated: with adaptive flush control on and the
sample constants (MIN 16, FLUSH_AMOUNT 10, MAX 100), the 8-bit narrowing of
the divided counter in `std::floor<uint8_t>` wraps: at 1000 pending requests
the quotient is 100 and `flushTime` is 100, but at 2560 the quotient 256
truncates to 0 and `flushTime` falls back to 16 — so `flushTime` is not
monotonically non-decreasing in the counter. -/
theorem flushTime_not_monotone_cex :
    cfgA.FLUSH_CONTROL_FOR_RENDERING = true ∧
    (1000 : Nat) ≤ 2560 ∧
    flushTime cfgA { fbA with requestAmount := 1000 } = 100 ∧
    flushTime cfgA { fbA with requestAmount := 2560 } = 16 ∧
    flushTime cfgA { fbA with requestAmount := 2560 } <
      flushTime cfgA { fbA with requestAmount := 1000 } := by decide

/-- C2 (amended): with adaptive flush control enabled, `flushTime()` never
exceeds `MAX_TIME_UPDATE`, and it is monotonically non-decreasing in the
pending-request counter (all other state equal) as long as the narrowed
quantity `MIN_TIME_UPDATE + counter / FLUSH_AMOUNT` stays below 256 (no
8-bit wraparound); across a wrap monotonicity fails. -/
theorem flushTime_capped_monotone_below_wrap (cfg : Config) (fb : FrameBuffer)
    (hfc : cfg.FLUSH_CONTROL_FOR_RENDERING = true) :
    flushTime cfg fb ≤ cfg.MAX_TIME_UPDATE ∧
    (∀ a b : Nat, a ≤ b →
        cfg.MIN_TIME_UPDATE + b / cfg.FLUSH_AMOUNT < 256 →
        flushTime cfg { fb with requestAmount := a } ≤
        flushTime cfg { fb with requestAmount := b }) := by
  constructor
  · simp only [flushTime, hfc, if_true]
    exact le_trans (min_le_right _ _) (Nat.mod_le _ _)
  · intro a b hab hbsum
    have hdiv : a / cfg.FLUSH_AMOUNT ≤ b / cfg.FLUSH_AMOUNT :=
      Nat.div_le_div_right hab
    have hb' : b / cfg.FLUSH_AMOUNT < 256 := by omega
    have ha' : a / cfg.FLUSH_AMOUNT < 256 := lt_of_le_of_lt hdiv hb'
    have hasum : cfg.MIN_TIME_UPDATE + a / cfg.FLUSH_AMOUNT < 256 := by omega
    simp only [flushTime, hfc, if_true]
    rw [Nat.mod_eq_of_lt ha', Nat.mod_eq_of_lt hb',
      Nat.mod_eq_of_lt hasum, Nat.mod_eq_of_lt hbsum]
    exact min_le_min (by omega) le_rfl

/-- Witness for the amended C2: the cap and a concrete below-wrap monotone
step at the sample config. -/
theorem flushTime_capped_monotone_below_wrap_witness :
    cfgA.FLUSH_CONTROL_FOR_RENDERING = true ∧
    flushTime cfgA fbA ≤ cfgA.MAX_TIME_UPDATE ∧
    ((50 : Nat) ≤ 2000 ∧
      cfgA.MIN_TIME_UPDATE + 2000 / cfgA.FLUSH_AMOUNT < 256 ∧
      flushTime cfgA { fbA with requestAmount := 50 } ≤
        flushTime cfgA { fbA with requestAmount := 2000 }) :=
  ⟨rfl, (flushTime_capped_monotone_below_wrap cfgA fbA rfl).1,
    by decide, by decide,
    (flushTime_capped_monotone_below_wrap cfgA fbA rfl).2 50 2000
      (by decide) (by decide)⟩

/-- A state that refutes C8 as stated: scheduling was enabled, a forced
update was requested via the sentinel, and then the instance's scheduling
flag was turned off.  The force flag persists. -/
def fbC8 : FrameBuffer :=
  setSchedulePaintingEnabled false (schedulePainting cfgA 65535 wA fbA).2

/-- A world whose clock equals the instance's last-render timestamp, so no
time has elapsed. -/
def wC8 : World := { wA with now := 0 }

/-- Counterexample to C8 as stated: with scheduling disabled for the
instance, `canUpdate()` returns true even though the elapsed time (0 ms) is
strictly below `flushTime()` — the force-update flag short-circuits the
disabled branch too (framebuffer.cpp line 179), so "true iff elapsed ≥
flushTime()" fails. -/
theorem canUpdate_disabled_iff_cex :
    schedulingOn cfgA fbC8 = false ∧
    elapsed wC8 fbC8 < flushTime cfgA fbC8 ∧
    canUpdate cfgA wC8 fbC8 = true := by decide

/-- C8 (amended): with scheduling disabled, `canUpdate()` returns true iff
the force-update flag is set or the elapsed time since the last render is at
least `flushTime()`; and `update()` is a no-op (in particular on the
pending-request counter). -/
theorem canUpdate_disabled_spec (cfg : Config) (w : World) (fb : FrameBuffer)
    (h : schedulingOn cfg fb = false) :
    (canUpdate cfg w fb = true ↔
      fb.forceUpdate = true ∨ flushTime cfg fb ≤ elapsed w fb) ∧
    update cfg fb = fb := by
  constructor
  · simp [canUpdate, h]
  · simp [update, h]

/-- C7: with scheduling enabled, `schedulePainting(0)`, `schedulePainting(d)`
for `d ≤ MIN_TIME_UPDATE` and `schedulePainting(FORCE_UPDATE)` never touch
the schedule table nor the dispatcher (no entry, no task, no refcount
change); the sentinel call additionally sets the permanent force flag, and a
call with `0 < d ≤ MIN_TIME_UPDATE` (d not the sentinel) has exactly the
effect of one `update()` call. -/
theorem schedulePainting_small_durations (cfg : Config) (w : World) (fb : FrameBuffer)
    (h1 : cfg.SCHEDULE_PAINTING = true) (h2 : fb.schedulePaintingEnabled = true)
    (hf0 : cfg.FORCE_UPDATE ≠ 0) :
    schedulePainting cfg 0 w fb = (w, fb) ∧
    (∀ d, d ≤ cfg.MIN_TIME_UPDATE →
      (schedulePainting cfg d w fb).1 = w ∧
      (schedulePainting cfg d w fb).2.schedules = fb.schedules) ∧
    schedulePainting cfg cfg.FORCE_UPDATE w fb = (w, { fb with forceUpdate := true }) ∧
    (∀ d, 0 < d → d ≤ cfg.MIN_TIME_UPDATE → d ≠ cfg.FORCE_UPDATE →
      schedulePainting cfg d w fb = (w, update cfg fb)) := by
  refine ⟨?_, ?_, ?_, ?_⟩
  · simp [schedulePainting, h1, h2]
  · intro d hd
    by_cases hd0 : d = 0
    · subst hd0
      simp [schedulePainting, h1, h2]
    · by_cases hdf : d = cfg.FORCE_UPDATE
      · subst hdf
        simp [schedulePainting, h1, h2, hd0]
      · simp [schedulePainting, h1, h2, hd0, hdf, hd, update, schedulingOn]
  · simp [schedulePainting, h1, h2, hf0]
  · intro d hdpos hd hdf
    have hd0 : ¬(d = 0) := by omega
    simp [schedulePainting, h1, h2, hd0, hdf, hd]

/-- Witness for C7 at the sample configuration, with the inner quantifiers
instantiated at duration 10 (below the 16 ms minimum). -/
theorem schedulePainting_small_durations_witness :
    cfgA.SCHEDULE_PAINTING = true ∧ fbA.schedulePaintingEnabled = true ∧
    cfgA.FORCE_UPDATE ≠ 0 ∧
    schedulePainting cfgA 0 wA fbA = (wA, fbA) ∧
    (schedulePainting cfgA 10 wA fbA).1 = wA ∧
    (schedulePainting cfgA 10 wA fbA).2.schedules = fbA.schedules ∧
    schedulePainting cfgA cfgA.FORCE_UPDATE wA fbA = (wA, { fbA with forceUpdate := true }) ∧
    schedulePainting cfgA 10 wA fbA = (wA, update cfgA fbA) := by
  have h := schedulePainting_small_durations cfgA wA fbA rfl rfl (by decide)
  exact ⟨rfl, rfl, by decide, h.1, (h.2.1 10 (by decide)).1, (h.2.1 10 (by decide)).2,
    h.2.2.1, h.2.2.2 10 (by decide) (by decide) (by decide)⟩

/-- C5: with scheduling enabled and a duration above the minimum (neither 0
nor the sentinel) that has no current subscribers, two `schedulePainting(d)`
calls create exactly one periodic task and leave the entry's reference count
at 2; one `removeRenderingTime(d)` leaves the task alive with count 1; a
second one brings the count to 0, cancels the task and releases the
handle. -/
theorem schedule_two_callers (cfg : Config) (w : World) (fb : FrameBuffer) (d : Nat)
    (w1 w2 w3 w4 : World) (fb1 fb2 fb3 fb4 : FrameBuffer)
    (h1 : cfg.SCHEDULE_PAINTING = true) (h2 : fb.schedulePaintingEnabled = true)
    (hmin : cfg.MIN_TIME_UPDATE < d) (hforce : d ≠ cfg.FORCE_UPDATE)
    (hentry : fb.schedules.getD d = ScheduleEntry.default)
    (hfresh : ∀ t ∈ w.activeTasks, t < w.nextTaskId)
    (hs1 : schedulePainting cfg d w fb = (w1, fb1))
    (hs2 : schedulePainting cfg d w1 fb1 = (w2, fb2))
    (hr1 : removeRenderingTime cfg d w2 fb2 = (w3, fb3))
    (hr2 : removeRenderingTime cfg d w3 fb3 = (w4, fb4)) :
    w2.nextTaskId = w.nextTaskId + 1 ∧
    fb2.schedules.getD d = ⟨2, some w.nextTaskId⟩ ∧
    (fb3.schedules.getD d).count = 1 ∧ w.nextTaskId ∈ w3.activeTasks ∧
    (fb4.schedules.getD d).count = 0 ∧ (fb4.schedules.getD d).task = none ∧
    w.nextTaskId ∉ w4.activeTasks := by
  have hd0 : ¬(d = 0) := by omega
  have hnle : ¬(d ≤ cfg.MIN_TIME_UPDATE) := by omega
  have e1 : schedulePainting cfg d w fb =
      ({ w with nextTaskId := w.nextTaskId + 1,
                activeTasks := w.nextTaskId :: w.activeTasks },
       { fb with schedules := fb.schedules.set d ⟨1, some w.nextTaskId⟩ }) := by
    simp [schedulePainting, h1, h2, hd0, hforce, hnle, hentry, ScheduleEntry.default]
  obtain ⟨hw1, hfb1⟩ := Prod.mk.injEq .. ▸ (e1.symm.trans hs1)
  have hw1next : w1.nextTaskId = w.nextTaskId + 1 := by rw [← hw1]
  have hw1act : w1.activeTasks = w.nextTaskId :: w.activeTasks := by rw [← hw1]
  have hfb1en : fb1.schedulePaintingEnabled = true := by rw [← hfb1]; exact h2
  have hfb1sched : fb1.schedules = fb.schedules.set d ⟨1, some w.nextTaskId⟩ := by
    rw [← hfb1]
  have hfb1get : fb1.schedules.getD d = ⟨1, some w.nextTaskId⟩ := by
    rw [hfb1sched, Schedules.getD_set_self]
  have e2 : schedulePainting cfg d w1 fb1 =
      (w1, { fb1 with schedules := fb1.schedules.set d ⟨2, some w.nextTaskId⟩ }) := by
    simp [schedulePainting, h1, hfb1en, hd0, hforce, hnle, hfb1get]
  obtain ⟨hw2, hfb2⟩ := Prod.mk.injEq .. ▸ (e2.symm.trans hs2)
  have hw2next : w2.nextTaskId = w.nextTaskId + 1 := by rw [← hw2, hw1next]
  have hw2act : w2.activeTasks = w.nextTaskId :: w.activeTasks := by rw [← hw2, hw1act]
  have hfb2get : fb2.schedules.getD d = ⟨2, some w.nextTaskId⟩ := by
    rw [← hfb2]
    exact Schedules.getD_set_self _ _ _
  have e3 : removeRenderingTime cfg d w2 fb2 =
      (w2, { fb2 with schedules := fb2.schedules.set d ⟨1, some w.nextTaskId⟩ }) := by
    simp [removeRenderingTime, h1, hfb2get]
  obtain ⟨hw3, hfb3⟩ := Prod.mk.injEq .. ▸ (e3.symm.trans hr1)
  have hw3act : w3.activeTasks = w.nextTaskId :: w.activeTasks := by rw [← hw3, hw2act]
  have hfb3get : fb3.schedules.getD d = ⟨1, some w.nextTaskId⟩ := by
    rw [← hfb3]
    exact Schedules.getD_set_self _ _ _
  have e4 : removeRenderingTime cfg d w3 fb3 =
      ({ w3 with activeTasks := w3.activeTasks.erase w.nextTaskId },
       { fb3 with schedules := fb3.schedules.set d ⟨0, none⟩ }) := by
    simp [removeRenderingTime, h1, hfb3get]
  obtain ⟨hw4, hfb4⟩ := Prod.mk.injEq .. ▸ (e4.symm.trans hr2)
  have hfb4get : fb4.schedules.getD d = ⟨0, none⟩ := by
    rw [← hfb4]
    exact Schedules.getD_set_self _ _ _
  have hmem : w.nextTaskId ∉ w.activeTasks := by
    intro hmem
    exact absurd (hfresh _ hmem) (lt_irrefl _)
  have hw4act : w4.activeTasks = w.activeTasks := by
    rw [← hw4]
    show (w3.activeTasks.erase w.nextTaskId) = w.activeTasks
    rw [hw3act, List.erase_cons_head]
  refine ⟨hw2next, hfb2get, ?_, ?_, ?_, ?_, ?_⟩
  · rw [hfb3get]
  · rw [hw3act]; exact List.mem_cons_self _ _
  · rw [hfb4get]
  · rw [hfb4get]
  · rw [hw4act]; exact hmem

/-- First `schedulePainting(100)` call of the C5 witness scenario. -/
def c5s1 : World × FrameBuffer := schedulePainting cfgA 100 wA fbA

/-- Second `schedulePainting(100)` call of the C5 witness scenario. -/
def c5s2 : World × FrameBuffer := schedulePainting cfgA 100 c5s1.1 c5s1.2

/-- First `removeRenderingTime(100)` call of the C5 witness scenario. -/
def c5r1 : World × FrameBuffer := removeRenderingTime cfgA 100 c5s2.1 c5s2.2

/-- Second `removeRenderingTime(100)` call of the C5 witness scenario. -/
def c5r2 : World × FrameBuffer := removeRenderingTime cfgA 100 c5r1.1 c5r1.2

/-- Witness for C5: the whole subscribe/unsubscribe cycle at duration 100 at
the sample configuration. -/
theorem schedule_two_callers_witness :
    cfgA.SCHEDULE_PAINTING = true ∧ fbA.schedulePaintingEnabled = true ∧
    cfgA.MIN_TIME_UPDATE < 100 ∧ (100 ≠ cfgA.FORCE_UPDATE) ∧
    fbA.schedules.getD 100 = ScheduleEntry.default ∧
    (c5s2.1.nextTaskId = wA.nextTaskId + 1 ∧
      c5s2.2.schedules.getD 100 = ⟨2, some wA.nextTaskId⟩ ∧
      (c5r1.2.schedules.getD 100).count = 1 ∧ wA.nextTaskId ∈ c5r1.1.activeTasks ∧
      (c5r2.2.schedules.getD 100).count = 0 ∧ (c5r2.2.schedules.getD 100).task = none ∧
      wA.nextTaskId ∉ c5r2.1.activeTasks) :=
  ⟨rfl, rfl, by decide, by decide, rfl,
    schedule_two_callers cfgA wA fbA 100 c5s1.1 c5s2.1 c5r1.1 c5r2.1
      c5s1.2 c5s2.2 c5r1.2 c5r2.2
      rfl rfl (by decide) (by decide) rfl (by decide) rfl rfl rfl rfl⟩

/-! ### The public operations as a single step function (for invariants) -/

/-- One public operation of the FrameBuffer interface. -/
inductive Op where
  | resizeTo (s : Size)
  | bindOp
  | releaseOp
  | drawOp
  | drawDestOp
  | drawDestSrcOp
  | updateOp
  | schedule (d : Nat)
  | removeTime (d : Nat)

/-- Effect of one public operation on the global and instance state; `none`
when the operation hits a failed assertion or a null dereference.  The pure
draws leave the state unchanged. -/
def step (cfg : Config) (op : Op) (w : World) (fb : FrameBuffer) :
    Option (World × FrameBuffer) :=
  match op with
  | .resizeTo s => resize s w fb
  | .bindOp => bind w fb
  | .releaseOp => release cfg w fb
  | .drawOp => (draw w fb).map fun _ => (w, fb)
  | .drawDestOp => (drawDest w fb).map fun _ => (w, fb)
  | .drawDestSrcOp => (drawDestSrc fb).map fun _ => (w, fb)
  | .updateOp => some (w, update cfg fb)
  | .schedule d => some (schedulePainting cfg d w fb)
  | .removeTime d => some (removeRenderingTime cfg d w fb)

theorem internalBind_schedules (w : World) (fb : FrameBuffer) (w' : World)
    (fb' : FrameBuffer) (h : internalBind w fb = some (w', fb')) :
    fb'.schedules = fb.schedules := by
  simp only [internalBind] at h
  repeat' split at h
  all_goals
    first
    | exact Option.noConfusion h
    | (injection h with hp
       injection hp with h1 h2
       subst h2
       rfl)

theorem internalRelease_schedules (w : World) (fb : FrameBuffer) (w' : World)
    (fb' : FrameBuffer) (h : internalRelease w fb = some (w', fb')) :
    fb'.schedules = fb.schedules := by
  simp only [internalRelease] at h
  repeat' split at h
  all_goals
    first
    | exact Option.noConfusion h
    | (injection h with hp
       injection hp with h1 h2
       subst h2
       rfl)

theorem resize_schedules (s : Size) (w : World) (fb : FrameBuffer) (w' : World)
    (fb' : FrameBuffer) (h : resize s w fb = some (w', fb')) :
    fb'.schedules = fb.schedules := by
  simp only [resize] at h
  split at h
  · simp at h
  · split at h
    · simp only [Option.some.injEq, Prod.mk.injEq] at h
      rw [← h.2]
    · split at h
      · split at h
        · simp at h
        · rename_i w2 fb2 hbind
          have h1 := internalBind_schedules _ _ _ _ hbind
          have h2 := internalRelease_schedules _ _ _ _ h
          rw [h2, h1]
      · split at h
        · simp only [Option.some.injEq, Prod.mk.injEq] at h
          rw [← h.2]
        · simp only [Option.some.injEq, Prod.mk.injEq] at h
          rw [← h.2]

theorem bind_schedules (w : World) (fb : FrameBuffer) (w' : World)
    (fb' : FrameBuffer) (h : bind w fb = some (w', fb')) :
    fb'.schedules = fb.schedules := by
  simp only [bind] at h
  split at h
  · simp at h
  · rename_i w1 fb1 hbind
    split at h
    · simp at h
    · simp only [Option.some.injEq, Prod.mk.injEq] at h
      rw [← h.2]
      exact internalBind_schedules _ _ _ _ hbind

theorem release_schedules (cfg : Config) (w : World) (fb : FrameBuffer) (w' : World)
    (fb' : FrameBuffer) (h : release cfg w fb = some (w', fb')) :
    fb'.schedules = fb.schedules := by
  simp only [release] at h
  split at h
  · simp at h
  · rename_i w1 fb1 hrel
    simp only [Option.some.injEq, Prod.mk.injEq] at h
    rw [← h.2]
    show fb1.schedules = fb.schedules
    exact internalRelease_schedules _ _ _ _ hrel

theorem update_schedules (cfg : Config) (fb : FrameBuffer) :
    (update cfg fb).schedules = fb.schedules := by
  unfold update
  split <;> rfl

theorem schedulePainting_tableWF (cfg : Config) (d : Nat) (w : World) (fb : FrameBuffer)
    (hwf : tableWF fb.schedules) :
    tableWF (schedulePainting cfg d w fb).2.schedules := by
  simp only [schedulePainting]
  split
  · exact hwf
  split
  · exact hwf
  split
  · exact hwf
  split
  · rw [update_schedules]; exact hwf
  split
  · exact tableWF_set _ _ _ hwf (by simp)
  · rename_i hc
    refine tableWF_set _ _ _ hwf ?_
    have hg := tableWF_getD fb.schedules d hwf
    exact ⟨fun _ => Nat.succ_pos _, fun _ => hg.mpr (Nat.pos_of_ne_zero hc)⟩

theorem removeRenderingTime_tableWF (cfg : Config) (d : Nat) (w : World) (fb : FrameBuffer)
    (hwf : tableWF fb.schedules) :
    tableWF (removeRenderingTime cfg d w fb).2.schedules := by
  simp only [removeRenderingTime]
  have hg := tableWF_getD fb.schedules d hwf
  split
  · exact hwf
  split
  · exact tableWF_set _ _ _ hwf hg
  split
  · exact tableWF_set _ _ _ hwf (by simp)
  · rename_i hc hcond
    refine tableWF_set _ _ _ hwf ?_
    have hsome : (fb.schedules.getD d).task.isSome = true :=
      hg.mpr (Nat.pos_of_ne_zero hc)
    have hc0 : (fb.schedules.getD d).count - 1 ≠ 0 := by
      intro h0
      exact hcond (by simp [h0, hsome])
    exact ⟨fun _ => Nat.pos_of_ne_zero hc0, fun _ => hsome⟩

/-- C6: the schedule-table invariant — an entry's periodic-task handle is
non-null iff its reference count is positive — holds for a freshly
constructed instance and is preserved by every public operation. -/
theorem schedule_entry_task_iff_count :
    (∀ fbo sm bk dr en, tableWF (FrameBuffer.init fbo sm bk dr en).schedules) ∧
    (∀ (cfg : Config) (op : Op) (w : World) (fb : FrameBuffer) (w' : World)
        (fb' : FrameBuffer), step cfg op w fb = some (w', fb') →
        tableWF fb.schedules → tableWF fb'.schedules) := by
  constructor
  · intro fbo sm bk dr en
    intro p hp
    simp [FrameBuffer.init] at hp
  · intro cfg op w fb w' fb' h hwf
    cases op with
    | resizeTo s => rw [resize_schedules s w fb w' fb' h]; exact hwf
    | bindOp => rw [bind_schedules w fb w' fb' h]; exact hwf
    | releaseOp => rw [release_schedules cfg w fb w' fb' h]; exact hwf
    | drawOp =>
        simp only [step, Option.map_eq_some'] at h
        obtain ⟨u, hu, h2⟩ := h
        obtain ⟨h3, h4⟩ := Prod.mk.injEq .. ▸ h2
        rw [← h4]; exact hwf
    | drawDestOp =>
        simp only [step, Option.map_eq_some'] at h
        obtain ⟨u, hu, h2⟩ := h
        obtain ⟨h3, h4⟩ := Prod.mk.injEq .. ▸ h2
        rw [← h4]; exact hwf
    | drawDestSrcOp =>
        simp only [step, Option.map_eq_some'] at h
        obtain ⟨u, hu, h2⟩ := h
        obtain ⟨h3, h4⟩ := Prod.mk.injEq .. ▸ h2
        rw [← h4]; exact hwf
    | updateOp =>
        simp only [step, Option.some.injEq] at h
        obtain ⟨h3, h4⟩ := Prod.mk.injEq .. ▸ h
        rw [← h4, update_schedules]; exact hwf
    | schedule d =>
        simp only [step, Option.some.injEq] at h
        have := schedulePainting_tableWF cfg d w fb hwf
        rw [h] at this
        exact this
    | removeTime d =>
        simp only [step, Option.some.injEq] at h
        have := removeRenderingTime_tableWF cfg d w fb hwf
        rw [h] at this
        exact this

/-- Witness for C6: the invariant evaluated on a concrete freshly built
instance and after a concrete `schedulePainting(100)` step. -/
theorem schedule_entry_task_iff_count_witness :
    tableWF (FrameBuffer.init 1 false false true true).schedules ∧
    tableWF (schedulePainting cfgA 100 wA fbA).2.schedules := by
  constructor
  · exact schedule_entry_task_iff_count.1 1 false false true true
  · exact schedule_entry_task_iff_count.2 cfgA (.schedule 100) wA fbA
      (schedulePainting cfgA 100 wA fbA).1 (schedulePainting cfgA 100 wA fbA).2
      rfl (by decide)

/-- Witness for the amended C8 at a concrete disabled instance. -/
theorem canUpdate_disabled_spec_witness :
    schedulingOn cfgA (setSchedulePaintingEnabled false fbA) = false ∧
    ((canUpdate cfgA wA (setSchedulePaintingEnabled false fbA) = true ↔
        (setSchedulePaintingEnabled false fbA).forceUpdate = true ∨
          flushTime cfgA (setSchedulePaintingEnabled false fbA) ≤
            elapsed wA (setSchedulePaintingEnabled false fbA)) ∧
      update cfgA (setSchedulePaintingEnabled false fbA) =
        setSchedulePaintingEnabled false fbA) :=
  ⟨rfl, canUpdate_disabled_spec cfgA wA (setSchedulePaintingEnabled false fbA) rfl⟩

/-! ### Bind/release and the global bound-target identifier -/

/-- State-changing operations that may legally occur on the instance strictly
between its `bind()` and the matching `release()` (the draw overloads and
`canUpdate()` only read state; `resize`, nested `bind`/`release` of the same
instance are excluded by the binding discipline). -/
inductive MidOp where
  | updateOp
  | schedule (d : Nat)
  | removeTime (d : Nat)

/-- Effect of one mid-operation on the combined state. -/
def midStep (cfg : Config) (op : MidOp) (s : World × FrameBuffer) :
    World × FrameBuffer :=
  match op with
  | .updateOp => (s.1, update cfg s.2)
  | .schedule d => schedulePainting cfg d s.1 s.2
  | .removeTime d => removeRenderingTime cfg d s.1 s.2

/-- Run a list of mid-operations in order. -/
def midRun (cfg : Config) (l : List MidOp) (s : World × FrameBuffer) :
    World × FrameBuffer :=
  match l with
  | [] => s
  | op :: rest => midRun cfg rest (midStep cfg op s)

theorem midStep_preserves (cfg : Config) (op : MidOp) (s : World × FrameBuffer) :
    (midStep cfg op s).1.boundFbo = s.1.boundFbo ∧
    (midStep cfg op s).2.fbo = s.2.fbo ∧
    (midStep cfg op s).2.prevBoundFbo = s.2.prevBoundFbo := by
  cases op with
  | updateOp =>
      simp only [midStep, update]
      repeat' split
      all_goals (refine ⟨?_, ?_, ?_⟩ <;> trivial)
  | schedule d =>
      simp only [midStep, schedulePainting, update]
      repeat' split
      all_goals (refine ⟨?_, ?_, ?_⟩ <;> trivial)
  | removeTime d =>
      simp only [midStep, removeRenderingTime]
      repeat' split
      all_goals (refine ⟨?_, ?_, ?_⟩ <;> trivial)

theorem midRun_preserves (cfg : Config) (l : List MidOp) :
    ∀ s : World × FrameBuffer,
      (midRun cfg l s).1.boundFbo = s.1.boundFbo ∧
      (midRun cfg l s).2.fbo = s.2.fbo ∧
      (midRun cfg l s).2.prevBoundFbo = s.2.prevBoundFbo := by
  induction l with
  | nil => intro s; exact ⟨rfl, rfl, rfl⟩
  | cons op rest ih =>
      intro s
      obtain ⟨h1, h2, h3⟩ := midStep_preserves cfg op s
      obtain ⟨g1, g2, g3⟩ := ih (midStep cfg op s)
      exact ⟨by rw [midRun, g1, h1], by rw [midRun, g2, h2], by rw [midRun, g3, h3]⟩

/-- C3: for a properly paired `bind()`/`release()` on an instance with a real
target, the global bound-id equals this instance's handle immediately after
`bind()` and at every point strictly in between (after any prefix of
mid-operations), and once `release()` returns it equals the value it held
immediately before `bind()`. -/
theorem bind_release_bound_id (cfg : Config) (w : World) (fb : FrameBuffer)
    (l : List MidOp) (w1 : World) (fb1 : FrameBuffer)
    (hfbo : fb.fbo ≠ 0) (hnb : w.boundFbo ≠ fb.fbo)
    (htex : fb.texture.isSome = true)
    (hb : bind w fb = some (w1, fb1)) :
    w1.boundFbo = fb.fbo ∧
    (midRun cfg l (w1, fb1)).1.boundFbo = fb.fbo ∧
    (release cfg (midRun cfg l (w1, fb1)).1 (midRun cfg l (w1, fb1)).2).map
      (fun p => p.1.boundFbo) = some w.boundFbo := by
  rcases Option.isSome_iff_exists.mp htex with ⟨t, ht⟩
  have he : bind w fb =
      some ({ w with boundFbo := fb.fbo }, { fb with prevBoundFbo := w.boundFbo }) := by
    simp [bind, internalBind, hfbo, hnb, ht]
  rw [he] at hb
  injection hb with hp
  injection hp with hw1 hfb1
  have hw1b : w1.boundFbo = fb.fbo := by rw [← hw1]
  have hfb1f : fb1.fbo = fb.fbo := by rw [← hfb1]
  have hfb1p : fb1.prevBoundFbo = w.boundFbo := by rw [← hfb1]
  obtain ⟨m1, m2, m3⟩ := midRun_preserves cfg l (w1, fb1)
  have hmb : (midRun cfg l (w1, fb1)).1.boundFbo = fb.fbo := by rw [m1]; exact hw1b
  have hmf : (midRun cfg l (w1, fb1)).2.fbo = fb.fbo := by rw [m2]; exact hfb1f
  have hmp : (midRun cfg l (w1, fb1)).2.prevBoundFbo = w.boundFbo := by
    rw [m3]; exact hfb1p
  refine ⟨hw1b, hmb, ?_⟩
  have hrel : release cfg (midRun cfg l (w1, fb1)).1 (midRun cfg l (w1, fb1)).2 =
      some ({ (midRun cfg l (w1, fb1)).1 with
                boundFbo := (midRun cfg l (w1, fb1)).2.prevBoundFbo },
            { (midRun cfg l (w1, fb1)).2 with
                forceUpdate := false
                lastRenderedTime := (midRun cfg l (w1, fb1)).1.now
                requestAmount := if cfg.SCHEDULE_PAINTING then 0
                  else (midRun cfg l (w1, fb1)).2.requestAmount }) := by
    have hne : (midRun cfg l (w1, fb1)).2.fbo ≠ 0 := by rw [hmf]; exact hfbo
    have heq : (midRun cfg l (w1, fb1)).1.boundFbo = (midRun cfg l (w1, fb1)).2.fbo := by
      rw [hmb, hmf]
    simp [release, internalRelease, hne, heq]
  rw [hrel]
  simp [hmp]

/-- Witness for C3: a concrete bind, one mid-operation, then release at the
sample configuration; instance handle 7, previously bound id 3. -/
theorem bind_release_bound_id_witness :
    ((FrameBuffer.init 7 false false true true).fbo ≠ 0 ∧
      ({ wA with boundFbo := 3 } : World).boundFbo ≠ 7 ∧
      ({ (FrameBuffer.init 7 false false true true) with
          texture := some ⟨0, ⟨4, 4⟩, false, true⟩ } : FrameBuffer).texture.isSome = true) ∧
    (bind { wA with boundFbo := 3 }
        { (FrameBuffer.init 7 false false true true) with
            texture := some ⟨0, ⟨4, 4⟩, false, true⟩ } =
      some ({ wA with boundFbo := 7 },
        { (FrameBuffer.init 7 false false true true) with
            texture := some ⟨0, ⟨4, 4⟩, false, true⟩, prevBoundFbo := 3 })) ∧
    (({ wA with boundFbo := 7 } : World).boundFbo = 7 ∧
      (midRun cfgA [MidOp.updateOp]
        ({ wA with boundFbo := 7 },
          { (FrameBuffer.init 7 false false true true) with
              texture := some ⟨0, ⟨4, 4⟩, false, true⟩, prevBoundFbo := 3 })).1.boundFbo = 7 ∧
      (release cfgA
          (midRun cfgA [MidOp.updateOp]
            ({ wA with boundFbo := 7 },
              { (FrameBuffer.init 7 false false true true) with
                  texture := some ⟨0, ⟨4, 4⟩, false, true⟩, prevBoundFbo := 3 })).1
          (midRun cfgA [MidOp.updateOp]
            ({ wA with boundFbo := 7 },
              { (FrameBuffer.init 7 false false true true) with
                  texture := some ⟨0, ⟨4, 4⟩, false, true⟩, prevBoundFbo := 3 })).2).map
        (fun p => p.1.boundFbo) = some 3) :=
  ⟨⟨by decide, by decide, by decide⟩, by decide,
    bind_release_bound_id cfgA { wA with boundFbo := 3 }
      { (FrameBuffer.init 7 false false true true) with
          texture := some ⟨0, ⟨4, 4⟩, false, true⟩ }
      [MidOp.updateOp] { wA with boundFbo := 7 }
      { (FrameBuffer.init 7 false false true true) with
          texture := some ⟨0, ⟨4, 4⟩, false, true⟩, prevBoundFbo := 3 }
      (by decide) (by decide) (by decide) (by decide)⟩

/-! ### Resize semantics -/

theorem resize_ok (s : Size) (w : World) (fb : FrameBuffer)
    (hv : s.isValid = true) (hnb : w.boundFbo ≠ fb.fbo) :
    (resize s w fb).isSome = true ∧
    ∀ w' fb', resize s w fb = some (w', fb') →
      fb'.texture.map Texture.size = some s ∧ fb'.fbo = fb.fbo ∧
      w'.boundFbo = w.boundFbo := by
  by_cases hsame : fb.texture.map Texture.size = some s
  · have he : resize s w fb = some (w, fb) := by
      simp [resize, hv, hsame]
    rw [he]
    refine ⟨rfl, ?_⟩
    intro w' fb' h
    injection h with hp
    injection hp with h1 h2
    subst h1; subst h2
    exact ⟨hsame, rfl, rfl⟩
  · by_cases h0 : fb.fbo = 0
    · by_cases hbk : fb.backuping = true
      · have he : resize s w fb =
            some ({ w with nextTexId := w.nextTexId + 1 + 1 },
              { fb with texture := some ⟨w.nextTexId, s, fb.smooth, true⟩,
                        screenBackup := some ⟨w.nextTexId + 1, s, false, true⟩ }) := by
          simp [resize, hv, hsame, h0, hbk]
        rw [he]
        refine ⟨rfl, ?_⟩
        intro w' fb' h
        injection h with hp
        injection hp with h1 h2
        subst h1; subst h2
        exact ⟨rfl, rfl, rfl⟩
      · have he : resize s w fb =
            some ({ w with nextTexId := w.nextTexId + 1 },
              { fb with texture := some ⟨w.nextTexId, s, fb.smooth, true⟩ }) := by
          simp [resize, hv, hsame, h0, hbk]
        rw [he]
        refine ⟨rfl, ?_⟩
        intro w' fb' h
        injection h with hp
        injection hp with h1 h2
        subst h1; subst h2
        exact ⟨rfl, rfl, rfl⟩
    · have he : resize s w fb =
          some ({ w with nextTexId := w.nextTexId + 1, boundFbo := w.boundFbo },
            { fb with texture := some ⟨w.nextTexId, s, fb.smooth, true⟩,
                      prevBoundFbo := w.boundFbo }) := by
        simp [resize, internalBind, internalRelease, hv, hsame, h0, hnb]
      rw [he]
      refine ⟨rfl, ?_⟩
      intro w' fb' h
      injection h with hp
      injection hp with h1 h2
      subst h1; subst h2
      exact ⟨rfl, rfl, rfl⟩

/-- A sequence of `resize` calls, each propagating the state (failure
propagates). -/
def resizeRun (l : List Size) (w : World) (fb : FrameBuffer) :
    Option (World × FrameBuffer) :=
  match l with
  | [] => some (w, fb)
  | s :: rest =>
      match resize s w fb with
      | none => none
      | some (w', fb') => resizeRun rest w' fb'

theorem resizeRun_last (l : List Size) (sl : Size) :
    ∀ (w : World) (fb : FrameBuffer),
      (∀ s ∈ l, s.isValid = true) → sl.isValid = true → w.boundFbo ≠ fb.fbo →
      ∃ w' fb', resizeRun (l ++ [sl]) w fb = some (w', fb') ∧
        fb'.texture.map Texture.size = some sl := by
  induction l with
  | nil =>
      intro w fb _ hvl hnb
      obtain ⟨hs, hfields⟩ := resize_ok sl w fb hvl hnb
      rcases hres : resize sl w fb with _ | ⟨w', fb'⟩
      · rw [hres] at hs; simp at hs
      · obtain ⟨ht, _, _⟩ := hfields w' fb' hres
        exact ⟨w', fb', by simp [resizeRun, hres], ht⟩
  | cons s rest ih =>
      intro w fb hvl hvsl hnb
      have hv : s.isValid = true := hvl s (List.mem_cons_self _ _)
      obtain ⟨hs, hfields⟩ := resize_ok s w fb hv hnb
      rcases hres : resize s w fb with _ | ⟨w', fb'⟩
      · rw [hres] at hs; simp at hs
      · obtain ⟨_, hfbo, hbound⟩ := hfields w' fb' hres
        have hnb' : w'.boundFbo ≠ fb'.fbo := by rw [hbound, hfbo]; exact hnb
        obtain ⟨w2, fb2, hrun, ht⟩ := ih w' fb'
          (fun q hq => hvl q (List.mem_cons_of_mem _ hq)) hvsl hnb'
        refine ⟨w2, fb2, ?_, ht⟩
        simp [resizeRun, hres, hrun]

/-- C4: `resize(S1)` then `resize(S2)` leaves the backing texture at size S2;
an immediately repeated `resize(S2)` is a complete no-op (world and instance
state, texture object included, are returned unchanged); and after any
sequence of valid `resize` calls the backing texture's size is the size
passed to the last call. -/
theorem resize_semantics (w : World) (fb : FrameBuffer) (s1 s2 : Size)
    (hv1 : s1.isValid = true) (hv2 : s2.isValid = true) (hne : s1 ≠ s2)
    (hnb : w.boundFbo ≠ fb.fbo) :
    (∀ w1 fb1 w2 fb2, resize s1 w fb = some (w1, fb1) →
        resize s2 w1 fb1 = some (w2, fb2) →
        fb2.texture.map Texture.size = some s2) ∧
    (∀ w1 fb1, resize s2 w fb = some (w1, fb1) →
        resize s2 w1 fb1 = some (w1, fb1)) ∧
    (∀ (l : List Size) (sl : Size), (∀ s ∈ l, s.isValid = true) →
        sl.isValid = true →
        ∃ w' fb', resizeRun (l ++ [sl]) w fb = some (w', fb') ∧
          fb'.texture.map Texture.size = some sl) := by
  refine ⟨?_, ?_, ?_⟩
  · intro w1 fb1 w2 fb2 h1 h2
    obtain ⟨_, hfields1⟩ := resize_ok s1 w fb hv1 hnb
    obtain ⟨_, hfbo1, hbound1⟩ := hfields1 w1 fb1 h1
    have hnb1 : w1.boundFbo ≠ fb1.fbo := by rw [hbound1, hfbo1]; exact hnb
    obtain ⟨_, hfields2⟩ := resize_ok s2 w1 fb1 hv2 hnb1
    exact (hfields2 w2 fb2 h2).1
  · intro w1 fb1 h1
    obtain ⟨_, hfields1⟩ := resize_ok s2 w fb hv2 hnb
    obtain ⟨ht1, _, _⟩ := hfields1 w1 fb1 h1
    simp [resize, hv2, ht1]
  · intro l sl hvl hvsl
    exact resizeRun_last l sl w fb hvl hvsl hnb

/-- Witness for C4 at concrete sizes 100×100 and 50×50 on a fresh
instance. -/
theorem resize_semantics_witness :
    (Size.isValid ⟨100, 100⟩ = true ∧ Size.isValid ⟨50, 50⟩ = true ∧
      (⟨100, 100⟩ : Size) ≠ ⟨50, 50⟩ ∧ wA.boundFbo ≠ fbA.fbo) ∧
    (∃ w' fb', resizeRun ([⟨100, 100⟩] ++ [⟨50, 50⟩]) wA fbA = some (w', fb') ∧
      fb'.texture.map Texture.size = some ⟨50, 50⟩) := by
  refine ⟨⟨by decide, by decide, by decide, by decide⟩, ?_⟩
  exact (resize_semantics wA fbA ⟨100, 100⟩ ⟨50, 50⟩ (by decide) (by decide)
    (by decide) (by decide)).2.2 [⟨100, 100⟩] ⟨50, 50⟩ (by decide) (by decide)

/-! ### The internal-bind assertion -/

/-- A world in which another instance (handle 1) is currently bound. -/
def wB0 : World := { wA with boundFbo := 1 }

/-- A second instance owning handle 2, scheduling enabled. -/
def fbB : FrameBuffer := FrameBuffer.init 2 false false true true

/-- The second instance after `resize(10×10)` under `wB0` (the resize binds
and releases the real target to attach the texture, recording the previously
bound handle 1). -/
def fbB1 : FrameBuffer :=
  { fbB with texture := some ⟨wB0.nextTexId, ⟨10, 10⟩, false, true⟩, prevBoundFbo := 1 }

/-- The world after that `resize`. -/
def wB1 : World := { wB0 with nextTexId := wB0.nextTexId + 1 }

/-- Counterexample to C9 as stated: with instance 1 (nonzero handle) recorded
as bound, instance 2 calls `bind()` — and it succeeds.  The debug assertion
in `internalBind` (framebuffer.cpp line 131) is `assert(boundFbo != m_fbo)`:
it rejects only self-rebinding, not binding over a different instance, which
is the supported nesting path. -/
theorem bind_other_bound_no_assert_cex :
    resize ⟨10, 10⟩ wB0 fbB = some (wB1, fbB1) ∧
    wB1.boundFbo = 1 ∧ fbB1.fbo = 2 ∧ wB1.boundFbo ≠ 0 ∧ wB1.boundFbo ≠ fbB1.fbo ∧
    (internalBind wB1 fbB1).isSome = true ∧
    (bind wB1 fbB1).isSome = true := by decide

/-- C9 (amended): for an instance owning a real target, the internal-bind
assertion fails exactly when the global bound-id already equals this
instance's own handle (self-rebinding); when a different handle (another
instance's or none) is bound, the bind succeeds, the global bound-id becomes
this instance's handle, and the previously bound handle is remembered for
restoration on release. -/
theorem internalBind_assert_spec (w : World) (fb : FrameBuffer)
    (hfbo : fb.fbo ≠ 0) :
    (internalBind w fb = none ↔ w.boundFbo = fb.fbo) ∧
    (∀ w' fb', internalBind w fb = some (w', fb') →
      w'.boundFbo = fb.fbo ∧ fb'.prevBoundFbo = w.boundFbo) := by
  constructor
  · constructor
    · intro h
      by_contra hne
      simp [internalBind, hfbo, hne] at h
    · intro h
      simp [internalBind, hfbo, h]
  · intro w' fb' h
    by_cases hb : w.boundFbo = fb.fbo
    · simp [internalBind, hfbo, hb] at h
    · have he : internalBind w fb =
          some ({ w with boundFbo := fb.fbo }, { fb with prevBoundFbo := w.boundFbo }) := by
        simp [internalBind, hfbo, hb]
      rw [he] at h
      injection h with hp
      injection hp with h1 h2
      subst h1; subst h2
      exact ⟨rfl, rfl⟩

/-- Witness for the amended C9: the assertion triggers on self-rebinding
(handle 2 already bound) and the nested bind over handle 1 succeeds. -/
theorem internalBind_assert_spec_witness :
    fbB1.fbo ≠ 0 ∧
    (internalBind { wB1 with boundFbo := 2 } fbB1 = none ↔
      ({ wB1 with boundFbo := 2 } : World).boundFbo = fbB1.fbo) ∧
    ((internalBind wB1 fbB1 = none ↔ wB1.boundFbo = fbB1.fbo) ∧
      ∀ w' fb', internalBind wB1 fbB1 = some (w', fb') →
        w'.boundFbo = fbB1.fbo ∧ fb'.prevBoundFbo = wB1.boundFbo) :=
  ⟨by decide, (internalBind_assert_spec { wB1 with boundFbo := 2 } fbB1 (by decide)).1,
    internalBind_assert_spec wB1 fbB1 (by decide)⟩

/-! ### Null dereferences before the first resize -/

/-- C10: on a freshly constructed instance (no `resize` yet, so both texture
pointers are null), `bind()` and every draw overload with the drawable flag
set dereference the null backing texture, and — when no real GPU target
exists — so do `getSize()` and `release()`; the backing texture exists after
any successful `resize`, which is therefore a precondition of these
operations. -/
theorem ops_require_resize (cfg : Config) (w : World) (fbo : Nat)
    (sm bk en : Bool) :
    bind w (FrameBuffer.init fbo sm bk true en) = none ∧
    draw w (FrameBuffer.init fbo sm bk true en) = none ∧
    drawDest w (FrameBuffer.init fbo sm bk true en) = none ∧
    drawDestSrc (FrameBuffer.init fbo sm bk true en) = none ∧
    (fbo = 0 → getSize w (FrameBuffer.init fbo sm bk true en) = none ∧
      release cfg w (FrameBuffer.init fbo sm bk true en) = none) ∧
    (∀ s w' fb', resize s w (FrameBuffer.init fbo sm bk true en) = some (w', fb') →
      fb'.texture.isSome = true) := by
  refine ⟨?_, rfl, rfl, rfl, ?_, ?_⟩
  · simp only [bind, internalBind, FrameBuffer.init]
    by_cases h0 : fbo ≠ 0 <;> by_cases hb : w.boundFbo = fbo <;>
      by_cases hbk : bk = true <;> simp [h0, hb, hbk]
  · intro h0
    subst h0
    exact ⟨rfl, rfl⟩
  · intro s w' fb' h
    simp only [resize, FrameBuffer.init] at h
    split at h
    · exact Option.noConfusion h
    · split at h
      · exact absurd ‹Option.map Texture.size none = some s› (by simp)
      · split at h
        · split at h
          · exact Option.noConfusion h
          · rename_i w2 fb2 hbind
            simp only [internalRelease] at h
            repeat' split at h
            all_goals first
              | exact Option.noConfusion h
              | (injection h with hp
                 injection hp with h1 h2
                 subst h2
                 simp only [internalBind] at hbind
                 repeat' split at hbind
                 all_goals first
                   | exact Option.noConfusion hbind
                   | (injection hbind with hq
                      injection hq with g1 g2
                      rw [← g2]
                      rfl))
        · split at h
          · injection h with hp
            injection hp with h1 h2
            subst h2
            rfl
          · injection h with hp
            injection hp with h1 h2
            subst h2
            rfl

/-- Witness for C10: all the failures evaluated concretely at a backup-mode
instance (handle 0), plus a successful resize establishing the texture. -/
theorem ops_require_resize_witness :
    (bind wA (FrameBuffer.init 0 false true true true) = none ∧
      draw wA (FrameBuffer.init 0 false true true true) = none ∧
      drawDest wA (FrameBuffer.init 0 false true true true) = none ∧
      drawDestSrc (FrameBuffer.init 0 false true true true) = none ∧
      getSize wA (FrameBuffer.init 0 false true true true) = none ∧
      release cfgA wA (FrameBuffer.init 0 false true true true) = none) ∧
    ((resize ⟨10, 10⟩ wA (FrameBuffer.init 0 false true true true)).map
      (fun p => p.2.texture.isSome) = some true) := by
  have h := ops_require_resize cfgA wA 0 false true true
  refine ⟨⟨h.1, h.2.1, h.2.2.1, h.2.2.2.1, (h.2.2.2.2.1 rfl).1, (h.2.2.2.2.1 rfl).2⟩, ?_⟩
  rcases hres : resize ⟨10, 10⟩ wA (FrameBuffer.init 0 false true true true)
      with _ | ⟨w', fb'⟩
  · exact absurd hres (by decide)
  · have := h.2.2.2.2.2 ⟨10, 10⟩ w' fb' hres
    simp [this]

end FB
